import Mathlib

/-
Verification development for the gematria address-discovery component.

Sources embedded here:
  * gematria/datasets/find_accessed_addrs.h (interface: AccessedAddrs,
    FindAccessedAddrs returning a status-or-value result).  The translation
    unit implementing FindAccessedAddrs is not part of the source tree, so
    the discovery loop below is modelled from the specification's state
    machine (spec sections 4.1-4.4, 5, 7).
  * gematria/basic_block/basic_block_protos.cc (proto <-> struct
    marshalling), embedded directly from the source.
-/

namespace Gematria

/-- Discovery error taxonomy from spec section 7. -/
inductive DiscoveryError where
  | sandboxSetupError
  | unresolvableAccessError
  | executionFault
  | timeoutError
deriving DecidableEq, Repr

/-- Result record from find_accessed_addrs.h: code location, block size and
the ordered list of accessed blocks. -/
structure AccessedAddrs where
  code_location : Nat
  block_size : Nat
  accessed_blocks : List Nat
deriving DecidableEq, Repr

/-- Modelled from the spec: configuration of the sandbox launcher and fault
interceptor (find_accessed_addrs.cc is missing from the tree).  It carries
the reporting block size, the plausible-access window, the cap on distinct
granted blocks, the hard iteration cap on the grant-and-resume cycle, and
the location where the code was placed. -/
structure FaaConfig where
  blockSize : Nat
  windowLo : Nat
  windowHi : Nat
  maxBlocks : Nat
  maxIterations : Nat
  codeLocation : Nat
deriving DecidableEq, Repr

/-- Modelled from the spec: a configuration is valid when the block size is
a positive power of two (spec section 3) and the window is nonempty. -/
def FaaConfig.Valid (cfg : FaaConfig) : Prop :=
  (∃ k : Nat, cfg.blockSize = 2 ^ k) ∧ cfg.windowLo ≤ cfg.windowHi

instance (cfg : FaaConfig) : Decidable cfg.Valid := by
  unfold FaaConfig.Valid
  have : Decidable (∃ k : Nat, cfg.blockSize = 2 ^ k) := by
    by_cases h : cfg.blockSize = 2 ^ (Nat.log 2 cfg.blockSize)
    · exact isTrue ⟨_, h⟩
    · refine isFalse ?_
      rintro ⟨k, hk⟩
      apply h
      rw [hk, Nat.log_pow (by norm_num)]
  exact instDecidableAnd

/-- Alignment helper from find_accessed_addrs_test.cc line 52:
AlignDown(x, align) = x - (x % align). -/
def alignDown (x : Nat) (align : Nat) : Nat := x - x % align

/-- Modelled from the spec: the fault-interceptor loop of section 4.2 over
the program-order sequence of memory addresses the block accesses
(find_accessed_addrs.cc is missing from the tree).  State: remaining
accesses, granted blocks in first-observed order, iterations used.  An
access inside an already granted block proceeds without a fault.  A fresh
block faults: past the hard iteration cap the run times out; an address
outside the plausible window or past the distinct-block cap aborts as
unresolvable; otherwise the block is granted, recorded, and execution
resumes at the faulting access.  An exhausted access list means the
sentinel fired: success. -/
def runIntercept (cfg : FaaConfig) :
    List Nat → List Nat → Nat → Except DiscoveryError (List Nat)
  | [], granted, _ => .ok granted
  | a :: rest, granted, iters =>
    if alignDown a cfg.blockSize ∈ granted then
      runIntercept cfg rest granted iters
    else if cfg.maxIterations ≤ iters then
      .error .timeoutError
    else if cfg.windowLo ≤ a ∧ a ≤ cfg.windowHi then
      if granted.length < cfg.maxBlocks then
        runIntercept cfg rest (granted ++ [alignDown a cfg.blockSize]) (iters + 1)
      else
        .error .unresolvableAccessError
    else
      .error .unresolvableAccessError

/-- Modelled from the spec: FindAccessedAddrs (whose implementing
translation unit is missing from the tree) as the result assembler of spec
section 4.4 applied to the interceptor run: on success it packages the
code location, the configured block size and the tracker's ordered list. -/
def findAccessedAddrs (cfg : FaaConfig) (accesses : List Nat) :
    Except DiscoveryError AccessedAddrs :=
  match runIntercept cfg accesses [] 0 with
  | .ok granted => .ok ⟨cfg.codeLocation, cfg.blockSize, granted⟩
  | .error e => .error e

/-- First-observed-order deduplication of a list: keeps the first
occurrence of each element, preserving order.  Reference meaning of the
address tracker of spec section 4.3. -/
def dedupFirst : List Nat → List Nat → List Nat
  | [], seen => seen
  | x :: xs, seen =>
    if x ∈ seen then dedupFirst xs seen else dedupFirst xs (seen ++ [x])

/-- Modelled from the spec: the interceptor loop of section 4.2 run against
a possibly never-completing access stream (code that never reaches the
sentinel), with explicit step fuel.  A result of none means the supplied
fuel was exhausted while the run was still in progress; some r means the
run resolved to r within that many interceptor steps.  State: stream
position, granted blocks, iterations used. -/
def runStream (cfg : FaaConfig) (s : Nat → Nat) :
    Nat → Nat → List Nat → Nat → Option (Except DiscoveryError AccessedAddrs)
  | 0, _, _, _ => none
  | fuel + 1, idx, granted, iters =>
    if alignDown (s idx) cfg.blockSize ∈ granted then
      runStream cfg s fuel (idx + 1) granted iters
    else if cfg.maxIterations ≤ iters then
      some (.error .timeoutError)
    else if cfg.windowLo ≤ s idx ∧ s idx ≤ cfg.windowHi then
      if granted.length < cfg.maxBlocks then
        runStream cfg s fuel (idx + 1)
          (granted ++ [alignDown (s idx) cfg.blockSize]) (iters + 1)
      else
        some (.error .unresolvableAccessError)
    else
      some (.error .unresolvableAccessError)

/-
Embedding of gematria/basic_block/basic_block_protos.cc.  C++ strings are
modelled as lists of characters; proto string/int/repeated fields read as
their C++ defaults (empty string, zero, empty list) when unset.  The
double-typed fp_immediate_value field is carried opaquely by the
marshalling (plain copy in both directions), so it is modelled by an
integer stand-in.
-/

/-- Null character, the value a C++ std::string subscript yields at
position size(). -/
def nullChar : Char := Char.ofNat 0

/-- C++ std::string subscript semantics: s[i] is defined for i ≤ s.size(),
yielding the stored character for i < size and the null character at
i = size; any larger index is undefined behaviour, modelled as none. -/
def cppStringAt (s : List Char) (i : Nat) : Option Char :=
  if h : i < s.length then some (s.get ⟨i, h⟩)
  else if i = s.length then some nullChar
  else none

/-- Total value of the subscript s[0] under C++ semantics: the first
character, or the null character for the empty string. -/
def charAtZero (s : List Char) : Char :=
  match s with
  | [] => nullChar
  | c :: _ => c

/-- Struct AddressTuple from basic_block.h, with the fields read and
written by basic_block_protos.cc. -/
structure AddressTuple where
  base_register : List Char
  displacement : Int
  index_register : List Char
  scaling : Nat
  segment_register : List Char
  base_register_size : Nat
  base_register_intefered_register : List (List Char)
  base_register_intefered_register_sizes : List Int
  index_register_size : Nat
  index_register_intefered_register : List (List Char)
  index_register_intefered_register_sizes : List Int
  segment_register_size : Nat
  segment_register_intefered_register : List (List Char)
  segment_register_intefered_register_sizes : List Int
deriving DecidableEq, Repr

/-- The five-argument AddressTuple constructor used at the top of
AddressTupleFromProto; the remaining fields keep their defaults (zero
sizes, empty lists). -/
def AddressTuple.make (base_register : List Char) (displacement : Int)
    (index_register : List Char) (scaling : Nat)
    (segment_register : List Char) : AddressTuple :=
  ⟨base_register, displacement, index_register, scaling, segment_register,
    0, [], [], 0, [], [], 0, [], []⟩

/-- Message CanonicalizedOperandProto.AddressTuple, with proto3 default
values for unset fields. -/
structure AddressTupleProto where
  base_register : List Char
  displacement : Int
  index_register : List Char
  scaling : Nat
  segment : List Char
  base_register_size : Nat
  base_register_intefered_register : List (List Char)
  base_register_intefered_register_sizes : List Int
  index_register_size : Nat
  index_register_intefered_register : List (List Char)
  index_register_intefered_register_sizes : List Int
  segment_size : Nat
  segment_intefered_register : List (List Char)
  segment_intefered_register_sizes : List Int
deriving DecidableEq, Repr

/-- A freshly constructed CanonicalizedOperandProto.AddressTuple: every
field at its proto3 default. -/
def AddressTupleProto.default : AddressTupleProto :=
  ⟨[], 0, [], 0, [], 0, [], [], 0, [], [], 0, [], []⟩

/-- AddressTupleFromProto from basic_block_protos.cc lines 39-69: builds
the tuple from the five scalar fields, then copies each register's size
and interference data when that register's name begins with the character
percent.  The subscripts proto.base_register()[0] (and index, segment)
are taken at their defined C++ value, the null character for an empty
string. -/
def AddressTupleFromProto (proto : AddressTupleProto) : AddressTuple :=
  let result := AddressTuple.make proto.base_register proto.displacement
    proto.index_register proto.scaling proto.segment
  let result := if charAtZero proto.base_register = '%' then
      { result with
        base_register_size := proto.base_register_size,
        base_register_intefered_register :=
          proto.base_register_intefered_register,
        base_register_intefered_register_sizes :=
          proto.base_register_intefered_register_sizes }
    else result
  let result := if charAtZero proto.index_register = '%' then
      { result with
        index_register_size := proto.index_register_size,
        index_register_intefered_register :=
          proto.index_register_intefered_register,
        index_register_intefered_register_sizes :=
          proto.index_register_intefered_register_sizes }
    else result
  let result := if charAtZero proto.segment = '%' then
      { result with
        segment_register_size := proto.segment_size,
        segment_register_intefered_register :=
          proto.segment_intefered_register,
        segment_register_intefered_register_sizes :=
          proto.segment_intefered_register_sizes }
    else result
  result

/-- AddressTupleFromProto with every string subscript interpreted by the
bounds-checking semantics cppStringAt: none would mean an out-of-bounds
subscript (undefined behaviour) was performed. -/
def AddressTupleFromProtoChecked (proto : AddressTupleProto) :
    Option AddressTuple := do
  let result := AddressTuple.make proto.base_register proto.displacement
    proto.index_register proto.scaling proto.segment
  let cb ← cppStringAt proto.base_register 0
  let result := if cb = '%' then
      { result with
        base_register_size := proto.base_register_size,
        base_register_intefered_register :=
          proto.base_register_intefered_register,
        base_register_intefered_register_sizes :=
          proto.base_register_intefered_register_sizes }
    else result
  let ci ← cppStringAt proto.index_register 0
  let result := if ci = '%' then
      { result with
        index_register_size := proto.index_register_size,
        index_register_intefered_register :=
          proto.index_register_intefered_register,
        index_register_intefered_register_sizes :=
          proto.index_register_intefered_register_sizes }
    else result
  let cs ← cppStringAt proto.segment 0
  let result := if cs = '%' then
      { result with
        segment_register_size := proto.segment_size,
        segment_register_intefered_register :=
          proto.segment_intefered_register,
        segment_register_intefered_register_sizes :=
          proto.segment_intefered_register_sizes }
    else result
  return result

/-- ProtoFromAddressTuple from basic_block_protos.cc lines 71-106: sets
the five scalar fields, then, for each register whose name is nonempty
and begins with the percent character, sets that register's size and
appends its interfered-register list.  The interfered-register-sizes
lists are never written. -/
def ProtoFromAddressTuple (address_tuple : AddressTuple) : AddressTupleProto :=
  let proto := { AddressTupleProto.default with
    base_register := address_tuple.base_register,
    displacement := address_tuple.displacement,
    index_register := address_tuple.index_register,
    scaling := address_tuple.scaling,
    segment := address_tuple.segment_register }
  let proto := if address_tuple.base_register ≠ [] ∧
      charAtZero address_tuple.base_register = '%' then
      { proto with
        base_register_size := address_tuple.base_register_size,
        base_register_intefered_register :=
          address_tuple.base_register_intefered_register }
    else proto
  let proto := if address_tuple.index_register ≠ [] ∧
      charAtZero address_tuple.index_register = '%' then
      { proto with
        index_register_size := address_tuple.index_register_size,
        index_register_intefered_register :=
          address_tuple.index_register_intefered_register }
    else proto
  let proto := if address_tuple.segment_register ≠ [] ∧
      charAtZero address_tuple.segment_register = '%' then
      { proto with
        segment_size := address_tuple.segment_register_size,
        segment_intefered_register :=
          address_tuple.segment_register_intefered_register }
    else proto
  proto

/-- Operand payload of struct InstructionOperand from basic_block.h, as
read and written by basic_block_protos.cc. -/
inductive InstructionOperand where
  | unknown
  | register (name : List Char)
  | immediateValue (value : Nat)
  | fpImmediateValue (value : Int)
  | address (address_tuple : AddressTuple)
  | memoryLocation (alias_group_id : Int)
  | virtualRegister (name : List Char) (size : Nat)
      (interfered_registers : List (List Char))
      (interfered_register_sizes : List Int)
deriving DecidableEq, Repr

/-- The oneof operand case of message CanonicalizedOperandProto. -/
inductive OperandCase where
  | notSet
  | registerName (name : List Char)
  | immediateValue (value : Nat)
  | fpImmediateValue (value : Int)
  | address (address_tuple : AddressTupleProto)
  | memory (alias_group_id : Int)
  | virtualRegister (name : List Char) (size : Nat)
deriving DecidableEq, Repr

/-- Message CanonicalizedOperandProto: the oneof payload plus the
top-level repeated interference fields. -/
structure CanonicalizedOperandProto where
  operand : OperandCase
  intefered_register : List (List Char)
  intefered_register_sizes : List Int
deriving DecidableEq, Repr

/-- InstructionOperandFromProto from basic_block_protos.cc lines 108-135:
dispatch on the operand case; the virtual-register case additionally reads
the top-level intefered_register and intefered_register_sizes fields. -/
def InstructionOperandFromProto (proto : CanonicalizedOperandProto) :
    InstructionOperand :=
  match proto.operand with
  | .notSet => .unknown
  | .registerName name => .register name
  | .immediateValue value => .immediateValue value
  | .fpImmediateValue value => .fpImmediateValue value
  | .address address_tuple => .address (AddressTupleFromProto address_tuple)
  | .memory alias_group_id => .memoryLocation alias_group_id
  | .virtualRegister name size =>
      .virtualRegister name size proto.intefered_register
        proto.intefered_register_sizes

/-- ProtoFromInstructionOperand from basic_block_protos.cc lines 137-167:
fills only the oneof payload; for a virtual register it writes the name
and size but not the interference lists. -/
def ProtoFromInstructionOperand (operand : InstructionOperand) :
    CanonicalizedOperandProto :=
  match operand with
  | .unknown => ⟨.notSet, [], []⟩
  | .register name => ⟨.registerName name, [], []⟩
  | .immediateValue value => ⟨.immediateValue value, [], []⟩
  | .fpImmediateValue value => ⟨.fpImmediateValue value, [], []⟩
  | .address address_tuple => ⟨.address (ProtoFromAddressTuple address_tuple), [], []⟩
  | .memoryLocation alias_group_id => ⟨.memory alias_group_id, [], []⟩
  | .virtualRegister name size _ _ => ⟨.virtualRegister name size, [], []⟩

/-- Struct Instruction from basic_block.h, with the fields handled by
InstructionFromProto and ProtoFromInstruction. -/
structure Instruction where
  mnemonic : List Char
  llvm_mnemonic : List Char
  prefixes : List (List Char)
  input_operands : List InstructionOperand
  implicit_input_operands : List InstructionOperand
  output_operands : List InstructionOperand
  implicit_output_operands : List InstructionOperand
deriving DecidableEq, Repr

/-- Message CanonicalizedInstructionProto, with the fields handled by
basic_block_protos.cc. -/
structure CanonicalizedInstructionProto where
  mnemonic : List Char
  llvm_mnemonic : List Char
  prefixes : List (List Char)
  input_operands : List CanonicalizedOperandProto
  implicit_input_operands : List CanonicalizedOperandProto
  output_operands : List CanonicalizedOperandProto
  implicit_output_operands : List CanonicalizedOperandProto
deriving DecidableEq, Repr

/-- InstructionFromProto from basic_block_protos.cc lines 191-203. -/
def InstructionFromProto (proto : CanonicalizedInstructionProto) :
    Instruction :=
  ⟨proto.mnemonic, proto.llvm_mnemonic, proto.prefixes,
    proto.input_operands.map InstructionOperandFromProto,
    proto.implicit_input_operands.map InstructionOperandFromProto,
    proto.output_operands.map InstructionOperandFromProto,
    proto.implicit_output_operands.map InstructionOperandFromProto⟩

/-- ProtoFromInstruction from basic_block_protos.cc lines 205-221. -/
def ProtoFromInstruction (instruction : Instruction) :
    CanonicalizedInstructionProto :=
  ⟨instruction.mnemonic, instruction.llvm_mnemonic, instruction.prefixes,
    instruction.input_operands.map ProtoFromInstructionOperand,
    instruction.implicit_input_operands.map ProtoFromInstructionOperand,
    instruction.output_operands.map ProtoFromInstructionOperand,
    instruction.implicit_output_operands.map ProtoFromInstructionOperand⟩

/-- Condition under which one register slot of an AddressTuple survives
the proto round trip: a slot whose register name begins with the percent
character must have an empty interfered-register-sizes list (the
serializer never writes that proto field), and any other slot must hold
only default data (zero size, empty lists), since the serializer skips it
entirely. -/
def slotRoundTrips (reg : List Char) (size : Nat) (ir : List (List Char))
    (irs : List Int) : Prop :=
  if charAtZero reg = '%' then irs = []
  else size = 0 ∧ ir = [] ∧ irs = []

instance (reg : List Char) (size : Nat) (ir : List (List Char))
    (irs : List Int) : Decidable (slotRoundTrips reg size ir irs) :=
  if h : charAtZero reg = '%' then
    decidable_of_iff (irs = []) (by simp [slotRoundTrips, h])
  else
    decidable_of_iff (size = 0 ∧ ir = [] ∧ irs = [])
      (by simp [slotRoundTrips, h])

/-- Condition under which an AddressTuple survives the proto round trip:
each of its three register slots does. -/
def AddressTuple.RoundTrips (t : AddressTuple) : Prop :=
  slotRoundTrips t.base_register t.base_register_size
      t.base_register_intefered_register
      t.base_register_intefered_register_sizes ∧
    slotRoundTrips t.index_register t.index_register_size
      t.index_register_intefered_register
      t.index_register_intefered_register_sizes ∧
    slotRoundTrips t.segment_register t.segment_register_size
      t.segment_register_intefered_register
      t.segment_register_intefered_register_sizes

instance (t : AddressTuple) : Decidable t.RoundTrips :=
  inferInstanceAs (Decidable
    (slotRoundTrips t.base_register t.base_register_size
        t.base_register_intefered_register
        t.base_register_intefered_register_sizes ∧
      slotRoundTrips t.index_register t.index_register_size
        t.index_register_intefered_register
        t.index_register_intefered_register_sizes ∧
      slotRoundTrips t.segment_register t.segment_register_size
        t.segment_register_intefered_register
        t.segment_register_intefered_register_sizes))

/-- Condition under which an operand survives the proto round trip: an
address operand's tuple must round trip, and a virtual register must have
empty interference lists (the serializer never writes them); all other
operands always round trip. -/
def InstructionOperand.RoundTrips : InstructionOperand → Prop
  | .address address_tuple => address_tuple.RoundTrips
  | .virtualRegister _ _ interfered_registers interfered_register_sizes =>
      interfered_registers = [] ∧ interfered_register_sizes = []
  | _ => True

instance : (o : InstructionOperand) → Decidable o.RoundTrips
  | .unknown => isTrue trivial
  | .register _ => isTrue trivial
  | .immediateValue _ => isTrue trivial
  | .fpImmediateValue _ => isTrue trivial
  | .address a => inferInstanceAs (Decidable a.RoundTrips)
  | .memoryLocation _ => isTrue trivial
  | .virtualRegister _ _ ir irs => inferInstanceAs (Decidable (ir = [] ∧ irs = []))

/-- Condition under which an Instruction survives the proto round trip:
every operand in each of the four operand lists does. -/
def Instruction.RoundTrips (i : Instruction) : Prop :=
  (∀ o ∈ i.input_operands, o.RoundTrips) ∧
    (∀ o ∈ i.implicit_input_operands, o.RoundTrips) ∧
    (∀ o ∈ i.output_operands, o.RoundTrips) ∧
    (∀ o ∈ i.implicit_output_operands, o.RoundTrips)

instance (i : Instruction) : Decidable i.RoundTrips :=
  inferInstanceAs (Decidable
    ((∀ o ∈ i.input_operands, o.RoundTrips) ∧
      (∀ o ∈ i.implicit_input_operands, o.RoundTrips) ∧
      (∀ o ∈ i.output_operands, o.RoundTrips) ∧
      (∀ o ∈ i.implicit_output_operands, o.RoundTrips)))

/-- Concrete instruction whose single input operand is a virtual register
with a nonempty interfered-register list. -/
def vregInstruction : Instruction :=
  ⟨[], [], [], [.virtualRegister ['v'] 4 [['a']] [4]], [], [], []⟩

/-- Concrete instruction whose operands all satisfy the round-trip
condition: an address operand with a percent-named base register and
empty interfered-register-sizes lists, plus a plain register operand. -/
def addrInstruction : Instruction :=
  ⟨['m'], ['M'], [['l']],
    [.address ⟨['%', 'r'], 8, [], 1, [], 8, [['%', 'a']], [], 0, [], [],
      0, [], []⟩],
    [.immediateValue 3], [.register ['e']], [.unknown]⟩

/-- Concrete discovery configuration used for evaluating the interceptor
model: 4096-byte blocks, window [0, 2^47), caps of 16 granted blocks and
16 iterations, code placed at 0x10000. -/
def cfgW : FaaConfig := ⟨4096, 0, 140737488355327, 16, 16, 65536⟩

/-- Concrete discovery configuration with a small iteration cap, used for
evaluating the stream runner. -/
def cfgT : FaaConfig := ⟨16, 0, 1000000, 5, 3, 0⟩

/-
Theorems.
-/

theorem alignDown_eq_mul (x b : Nat) : alignDown x b = b * (x / b) := by
  unfold alignDown
  have h := Nat.div_add_mod x b
  omega

theorem alignDown_mod (x b : Nat) : alignDown x b % b = 0 := by
  rw [alignDown_eq_mul]
  exact Nat.mul_mod_right b (x / b)

theorem alignDown_of_mod_eq_zero (x b : Nat) (h : x % b = 0) :
    alignDown x b = x := by
  unfold alignDown
  omega

theorem runIntercept_nil (cfg : FaaConfig) (granted : List Nat) (iters : Nat) :
    runIntercept cfg [] granted iters = Except.ok granted := rfl

theorem runIntercept_step_grant (cfg : FaaConfig) (a : Nat)
    (rest granted : List Nat) (iters : Nat)
    (hmem : alignDown a cfg.blockSize ∉ granted)
    (hiter : iters < cfg.maxIterations)
    (hlo : cfg.windowLo ≤ a) (hhi : a ≤ cfg.windowHi)
    (hcap : granted.length < cfg.maxBlocks) :
    runIntercept cfg (a :: rest) granted iters =
      runIntercept cfg rest (granted ++ [alignDown a cfg.blockSize])
        (iters + 1) := by
  simp only [runIntercept]
  rw [if_neg hmem, if_neg (by omega), if_pos ⟨hlo, hhi⟩, if_pos hcap]

theorem runIntercept_ok_dedup (cfg : FaaConfig) :
    ∀ (accesses granted : List Nat) (iters : Nat) (out : List Nat),
      runIntercept cfg accesses granted iters = Except.ok out →
      out = dedupFirst (accesses.map (fun a => alignDown a cfg.blockSize))
        granted := by
  intro accesses
  induction accesses with
  | nil =>
    intro granted iters out h
    simp only [runIntercept, Except.ok.injEq] at h
    subst h
    rfl
  | cons a rest ih =>
    intro granted iters out h
    simp only [runIntercept] at h
    simp only [List.map_cons, dedupFirst]
    by_cases hmem : alignDown a cfg.blockSize ∈ granted
    · rw [if_pos hmem] at h ⊢
      exact ih granted iters out h
    · rw [if_neg hmem] at h
      rw [if_neg hmem]
      by_cases hiter : cfg.maxIterations ≤ iters
      · rw [if_pos hiter] at h
        cases h
      · rw [if_neg hiter] at h
        by_cases hwin : cfg.windowLo ≤ a ∧ a ≤ cfg.windowHi
        · rw [if_pos hwin] at h
          by_cases hcap : granted.length < cfg.maxBlocks
          · rw [if_pos hcap] at h
            exact ih _ _ _ h
          · rw [if_neg hcap] at h
            cases h
        · rw [if_neg hwin] at h
          cases h

theorem runIntercept_ok_nodup (cfg : FaaConfig) :
    ∀ (accesses granted : List Nat) (iters : Nat) (out : List Nat),
      runIntercept cfg accesses granted iters = Except.ok out →
      granted.Nodup → out.Nodup := by
  intro accesses
  induction accesses with
  | nil =>
    intro granted iters out h hnd
    simp only [runIntercept, Except.ok.injEq] at h
    subst h
    exact hnd
  | cons a rest ih =>
    intro granted iters out h hnd
    simp only [runIntercept] at h
    by_cases hmem : alignDown a cfg.blockSize ∈ granted
    · rw [if_pos hmem] at h
      exact ih granted iters out h hnd
    · rw [if_neg hmem] at h
      by_cases hiter : cfg.maxIterations ≤ iters
      · rw [if_pos hiter] at h
        cases h
      · rw [if_neg hiter] at h
        by_cases hwin : cfg.windowLo ≤ a ∧ a ≤ cfg.windowHi
        · rw [if_pos hwin] at h
          by_cases hcap : granted.length < cfg.maxBlocks
          · rw [if_pos hcap] at h
            refine ih _ _ _ h ?_
            refine hnd.append (List.nodup_singleton _) ?_
            intro x hx hxs
            simp only [List.mem_singleton] at hxs
            subst hxs
            exact hmem hx
          · rw [if_neg hcap] at h
            cases h
        · rw [if_neg hwin] at h
          cases h

theorem runIntercept_ok_aligned (cfg : FaaConfig) :
    ∀ (accesses granted : List Nat) (iters : Nat) (out : List Nat),
      runIntercept cfg accesses granted iters = Except.ok out →
      (∀ b ∈ granted, b % cfg.blockSize = 0) →
      ∀ b ∈ out, b % cfg.blockSize = 0 := by
  intro accesses
  induction accesses with
  | nil =>
    intro granted iters out h hal
    simp only [runIntercept, Except.ok.injEq] at h
    subst h
    exact hal
  | cons a rest ih =>
    intro granted iters out h hal
    simp only [runIntercept] at h
    by_cases hmem : alignDown a cfg.blockSize ∈ granted
    · rw [if_pos hmem] at h
      exact ih granted iters out h hal
    · rw [if_neg hmem] at h
      by_cases hiter : cfg.maxIterations ≤ iters
      · rw [if_pos hiter] at h
        cases h
      · rw [if_neg hiter] at h
        by_cases hwin : cfg.windowLo ≤ a ∧ a ≤ cfg.windowHi
        · rw [if_pos hwin] at h
          by_cases hcap : granted.length < cfg.maxBlocks
          · rw [if_pos hcap] at h
            refine ih _ _ _ h ?_
            intro b hb
            rcases List.mem_append.mp hb with hb | hb
            · exact hal b hb
            · simp only [List.mem_singleton] at hb
              subst hb
              exact alignDown_mod a cfg.blockSize
          · rw [if_neg hcap] at h
            cases h
        · rw [if_neg hwin] at h
          cases h

theorem runIntercept_ok_covers (cfg : FaaConfig) :
    ∀ (accesses granted : List Nat) (iters : Nat) (out : List Nat),
      runIntercept cfg accesses granted iters = Except.ok out →
      (∀ b ∈ granted, b ∈ out) ∧
        ∀ a ∈ accesses, alignDown a cfg.blockSize ∈ out := by
  intro accesses
  induction accesses with
  | nil =>
    intro granted iters out h
    simp only [runIntercept, Except.ok.injEq] at h
    subst h
    exact ⟨fun b hb => hb, by simp⟩
  | cons a rest ih =>
    intro granted iters out h
    simp only [runIntercept] at h
    by_cases hmem : alignDown a cfg.blockSize ∈ granted
    · rw [if_pos hmem] at h
      obtain ⟨h1, h2⟩ := ih granted iters out h
      refine ⟨h1, ?_⟩
      intro x hx
      rcases List.mem_cons.mp hx with hx | hx
      · subst hx
        exact h1 _ hmem
      · exact h2 x hx
    · rw [if_neg hmem] at h
      by_cases hiter : cfg.maxIterations ≤ iters
      · rw [if_pos hiter] at h
        cases h
      · rw [if_neg hiter] at h
        by_cases hwin : cfg.windowLo ≤ a ∧ a ≤ cfg.windowHi
        · rw [if_pos hwin] at h
          by_cases hcap : granted.length < cfg.maxBlocks
          · rw [if_pos hcap] at h
            obtain ⟨h1, h2⟩ := ih _ _ _ h
            refine ⟨fun b hb => h1 b (List.mem_append_left _ hb), ?_⟩
            intro x hx
            rcases List.mem_cons.mp hx with hx | hx
            · subst hx
              exact h1 _ (by simp)
            · exact h2 x hx
          · rw [if_neg hcap] at h
            cases h
        · rw [if_neg hwin] at h
          cases h

theorem runIntercept_ok_mem_source (cfg : FaaConfig) :
    ∀ (accesses granted : List Nat) (iters : Nat) (out : List Nat),
      runIntercept cfg accesses granted iters = Except.ok out →
      ∀ b ∈ out, b ∈ granted ∨
        ∃ a ∈ accesses, b = alignDown a cfg.blockSize := by
  intro accesses
  induction accesses with
  | nil =>
    intro granted iters out h
    simp only [runIntercept, Except.ok.injEq] at h
    subst h
    exact fun b hb => Or.inl hb
  | cons a rest ih =>
    intro granted iters out h
    simp only [runIntercept] at h
    by_cases hmem : alignDown a cfg.blockSize ∈ granted
    · rw [if_pos hmem] at h
      intro b hb
      rcases ih granted iters out h b hb with hb | ⟨x, hx, hbx⟩
      · exact Or.inl hb
      · exact Or.inr ⟨x, List.mem_cons_of_mem _ hx, hbx⟩
    · rw [if_neg hmem] at h
      by_cases hiter : cfg.maxIterations ≤ iters
      · rw [if_pos hiter] at h
        cases h
      · rw [if_neg hiter] at h
        by_cases hwin : cfg.windowLo ≤ a ∧ a ≤ cfg.windowHi
        · rw [if_pos hwin] at h
          by_cases hcap : granted.length < cfg.maxBlocks
          · rw [if_pos hcap] at h
            intro b hb
            rcases ih _ _ _ h b hb with hb | ⟨x, hx, hbx⟩
            · rcases List.mem_append.mp hb with hb | hb
              · exact Or.inl hb
              · simp only [List.mem_singleton] at hb
                exact Or.inr ⟨a, List.mem_cons_self _ _, hb⟩
            · exact Or.inr ⟨x, List.mem_cons_of_mem _ hx, hbx⟩
          · rw [if_neg hcap] at h
            cases h
        · rw [if_neg hwin] at h
          cases h

theorem findAccessedAddrs_ok_elim (cfg : FaaConfig) (accesses : List Nat)
    (r : AccessedAddrs)
    (h : findAccessedAddrs cfg accesses = Except.ok r) :
    runIntercept cfg accesses [] 0 = Except.ok r.accessed_blocks ∧
      r.code_location = cfg.codeLocation ∧ r.block_size = cfg.blockSize := by
  unfold findAccessedAddrs at h
  cases hrun : runIntercept cfg accesses [] 0 with
  | ok g =>
    rw [hrun] at h
    simp only [Except.ok.injEq] at h
    subst h
    exact ⟨rfl, rfl, rfl⟩
  | error e =>
    rw [hrun] at h
    cases h

/-- C1: code touching absolute addresses 0x10000 then 0x20000 in program
order yields a successful result with accessed_blocks = [0x10000, 0x20000];
and in general the discovered list is exactly the first-occurrence
deduplication, in runtime encounter order, of the aligned access sequence,
so aggregation never reorders. -/
theorem faa_multiple_accesses_ordered (cfg : FaaConfig)
    (hd1 : cfg.blockSize ∣ 0x10000) (hd2 : cfg.blockSize ∣ 0x20000)
    (hlo : cfg.windowLo ≤ 0x10000) (hhi : 0x20000 ≤ cfg.windowHi)
    (hiter : 2 ≤ cfg.maxIterations) (hblocks : 2 ≤ cfg.maxBlocks) :
    findAccessedAddrs cfg [0x10000, 0x20000] =
      Except.ok ⟨cfg.codeLocation, cfg.blockSize, [0x10000, 0x20000]⟩ ∧
    ∀ (cfg2 : FaaConfig) (accesses : List Nat) (r : AccessedAddrs),
      findAccessedAddrs cfg2 accesses = Except.ok r →
      r.accessed_blocks =
        dedupFirst (accesses.map (fun a => alignDown a cfg2.blockSize)) [] := by
  have hm1 : (0x10000 : Nat) % cfg.blockSize = 0 := by
    obtain ⟨c, hc⟩ := hd1
    rw [hc]
    exact Nat.mul_mod_right _ _
  have hm2 : (0x20000 : Nat) % cfg.blockSize = 0 := by
    obtain ⟨c, hc⟩ := hd2
    rw [hc]
    exact Nat.mul_mod_right _ _
  have e1 : alignDown 0x10000 cfg.blockSize = 0x10000 :=
    alignDown_of_mod_eq_zero _ _ hm1
  have e2 : alignDown 0x20000 cfg.blockSize = 0x20000 :=
    alignDown_of_mod_eq_zero _ _ hm2
  constructor
  · unfold findAccessedAddrs
    rw [runIntercept_step_grant cfg 0x10000 [0x20000] [] 0
        (by simp) (by omega) hlo (by omega) (by simp; omega)]
    rw [e1]
    simp only [List.nil_append]
    rw [runIntercept_step_grant cfg 0x20000 [] [0x10000] 1
        (by rw [e2]; norm_num) (by omega) (by omega) hhi (by simp; omega)]
    rw [e2, runIntercept_nil]
    rfl
  · intro cfg2 accesses r h
    obtain ⟨hrun, _, _⟩ := findAccessedAddrs_ok_elim cfg2 accesses r h
    exact runIntercept_ok_dedup cfg2 accesses [] 0 r.accessed_blocks hrun

/-- C1 witness: the concrete configuration cfgW satisfies every hypothesis
and yields exactly [0x10000, 0x20000]. -/
theorem faa_multiple_accesses_ordered_witness :
    findAccessedAddrs cfgW [0x10000, 0x20000] =
      Except.ok ⟨65536, 4096, [0x10000, 0x20000]⟩ :=
  (faa_multiple_accesses_ordered cfgW (by norm_num [cfgW])
    (by norm_num [cfgW]) (by norm_num [cfgW]) (by norm_num [cfgW])
    (by norm_num [cfgW]) (by norm_num [cfgW])).1

/-- C2: every successful result has a power-of-two block_size and every
address in accessed_blocks is a multiple of block_size. -/
theorem faa_blocks_aligned (cfg : FaaConfig) (hv : cfg.Valid)
    (accesses : List Nat) (r : AccessedAddrs)
    (h : findAccessedAddrs cfg accesses = Except.ok r) :
    (∃ k : Nat, r.block_size = 2 ^ k) ∧
      ∀ b ∈ r.accessed_blocks, b % r.block_size = 0 := by
  obtain ⟨hrun, _, hbs⟩ := findAccessedAddrs_ok_elim cfg accesses r h
  refine ⟨hbs ▸ hv.1, ?_⟩
  rw [hbs]
  exact runIntercept_ok_aligned cfg accesses [] 0 r.accessed_blocks hrun
    (by simp)

/-- C2 witness: a run of cfgW on two unaligned addresses, with its
power-of-two and alignment conclusions at that concrete result. -/
theorem faa_blocks_aligned_witness :
    (∃ k : Nat, (4096 : Nat) = 2 ^ k) ∧
      ∀ b ∈ [4096, 12288], b % 4096 = 0 := by
  have h := faa_blocks_aligned cfgW
    ⟨⟨12, by norm_num [cfgW]⟩, by norm_num [cfgW]⟩
    [5000, 12289] ⟨65536, 4096, [4096, 12288]⟩ (by rfl)
  simpa [cfgW] using h

/-- C3: every successful result has duplicate-free accessed_blocks, and
each access's aligned block appears in the result exactly once, so two
accesses landing in the same block contribute a single entry. -/
theorem faa_no_duplicates (cfg : FaaConfig) (accesses : List Nat)
    (r : AccessedAddrs)
    (h : findAccessedAddrs cfg accesses = Except.ok r) :
    r.accessed_blocks.Nodup ∧
      ∀ a ∈ accesses,
        r.accessed_blocks.count (alignDown a cfg.blockSize) = 1 := by
  obtain ⟨hrun, _, _⟩ := findAccessedAddrs_ok_elim cfg accesses r h
  have hnd := runIntercept_ok_nodup cfg accesses [] 0 r.accessed_blocks hrun
    List.nodup_nil
  refine ⟨hnd, ?_⟩
  intro a ha
  have hcov := (runIntercept_ok_covers cfg accesses [] 0 r.accessed_blocks
    hrun).2 a ha
  exact List.count_eq_one_of_mem hnd hcov

/-- C3 witness: two accesses to the same 4096-byte block yield a single,
duplicate-free entry. -/
theorem faa_no_duplicates_witness :
    ([0] : List Nat).Nodup ∧
      ∀ a ∈ [7, 9], ([0] : List Nat).count (alignDown a 4096) = 1 := by
  have h := faa_no_duplicates cfgW [7, 9] ⟨65536, 4096, [0]⟩ (by rfl)
  simpa [cfgW] using h

/-- C4: code performing no memory access yields a successful result with
empty accessed_blocks; and every block a successful result reports comes
from an access the code actually performed, never from sandbox setup
alone. -/
theorem faa_no_memory_accesses (cfg : FaaConfig) :
    findAccessedAddrs cfg [] =
      Except.ok ⟨cfg.codeLocation, cfg.blockSize, []⟩ ∧
    ∀ (cfg2 : FaaConfig) (accesses : List Nat) (r : AccessedAddrs),
      findAccessedAddrs cfg2 accesses = Except.ok r →
      ∀ b ∈ r.accessed_blocks,
        ∃ a ∈ accesses, b = alignDown a cfg2.blockSize := by
  constructor
  · rfl
  · intro cfg2 accesses r h b hb
    obtain ⟨hrun, _, _⟩ := findAccessedAddrs_ok_elim cfg2 accesses r h
    rcases runIntercept_ok_mem_source cfg2 accesses [] 0 r.accessed_blocks
      hrun b hb with hb | hsrc
    · cases hb
    · exact hsrc

/-- C4 witness: the empty access sequence under cfgW reports no blocks. -/
theorem faa_no_memory_accesses_witness :
    findAccessedAddrs cfgW [] = Except.ok ⟨65536, 4096, []⟩ :=
  (faa_no_memory_accesses cfgW).1

/-- C5: code that stores to absolute address 0 yields a successful result
with accessed_blocks = [0]. -/
theorem faa_store_to_zero (cfg : FaaConfig) (hlo : cfg.windowLo = 0)
    (hiter : 0 < cfg.maxIterations) (hcap : 0 < cfg.maxBlocks) :
    findAccessedAddrs cfg [0] =
      Except.ok ⟨cfg.codeLocation, cfg.blockSize, [0]⟩ := by
  have e0 : alignDown 0 cfg.blockSize = 0 := by
    unfold alignDown
    omega
  unfold findAccessedAddrs
  rw [runIntercept_step_grant cfg 0 [] [] 0 (by simp) (by omega)
      (by omega) (Nat.zero_le _) (by simp; omega)]
  rw [e0, runIntercept_nil]
  rfl

/-- C5 witness: cfgW's window starts at 0, and the run reports exactly
block 0. -/
theorem faa_store_to_zero_witness :
    findAccessedAddrs cfgW [0] = Except.ok ⟨65536, 4096, [0]⟩ :=
  faa_store_to_zero cfgW (by norm_num [cfgW]) (by norm_num [cfgW])
    (by norm_num [cfgW])

/-- C6: for any address A inside the plausible-access window, code whose
single access dereferences A yields a successful result whose one block is
A rounded down to a block_size boundary. -/
theorem faa_register_loaded_address (cfg : FaaConfig) (A : Nat)
    (hlo : cfg.windowLo ≤ A) (hhi : A ≤ cfg.windowHi)
    (hiter : 0 < cfg.maxIterations) (hcap : 0 < cfg.maxBlocks) :
    findAccessedAddrs cfg [A] =
      Except.ok ⟨cfg.codeLocation, cfg.blockSize,
        [alignDown A cfg.blockSize]⟩ := by
  unfold findAccessedAddrs
  rw [runIntercept_step_grant cfg A [] [] 0 (by simp) (by omega) hlo hhi
      (by simp; omega)]
  rw [runIntercept_nil]
  rfl

/-- C6 witness: address 123456789 lies in cfgW's window and is reported
rounded down to its 4096-byte block. -/
theorem faa_register_loaded_address_witness :
    findAccessedAddrs cfgW [123456789] =
      Except.ok ⟨65536, 4096, [alignDown 123456789 4096]⟩ :=
  faa_register_loaded_address cfgW 123456789 (by norm_num [cfgW])
    (by norm_num [cfgW]) (by norm_num [cfgW]) (by norm_num [cfgW])

/-- C7: discovery is a total function into a typed result: on every input
it returns either a success value or one of the four discovery errors,
never anything else. -/
theorem faa_total_typed_result (cfg : FaaConfig) (accesses : List Nat) :
    (∃ r : AccessedAddrs, findAccessedAddrs cfg accesses = Except.ok r) ∨
    findAccessedAddrs cfg accesses =
      Except.error DiscoveryError.sandboxSetupError ∨
    findAccessedAddrs cfg accesses =
      Except.error DiscoveryError.unresolvableAccessError ∨
    findAccessedAddrs cfg accesses =
      Except.error DiscoveryError.executionFault ∨
    findAccessedAddrs cfg accesses =
      Except.error DiscoveryError.timeoutError := by
  cases h : findAccessedAddrs cfg accesses with
  | ok r => exact Or.inl ⟨r, rfl⟩
  | error e => cases e <;> simp

/-- Auxiliary invariant for the stream runner: once idx grants have been
performed on a stream whose first maxIterations + 1 accesses all fault on
pairwise-distinct blocks inside the window, the run resolves to a timeout
within the remaining fuel. -/
theorem runStream_timeout_aux (cfg : FaaConfig) (s : Nat → Nat)
    (hwin : ∀ i ≤ cfg.maxIterations,
      cfg.windowLo ≤ s i ∧ s i ≤ cfg.windowHi)
    (hfresh : ∀ i ≤ cfg.maxIterations, ∀ j ≤ cfg.maxIterations, i ≠ j →
      alignDown (s i) cfg.blockSize ≠ alignDown (s j) cfg.blockSize)
    (hcap : cfg.maxIterations ≤ cfg.maxBlocks) :
    ∀ (n idx : Nat), idx + n = cfg.maxIterations →
      runStream cfg s (n + 1) idx
        ((List.range idx).map (fun i => alignDown (s i) cfg.blockSize)) idx =
      some (Except.error DiscoveryError.timeoutError) := by
  intro n
  induction n with
  | zero =>
    intro idx hidx
    have hidx0 : idx = cfg.maxIterations := by omega
    have hmem : alignDown (s idx) cfg.blockSize ∉
        (List.range idx).map (fun i => alignDown (s i) cfg.blockSize) := by
      simp only [List.mem_map, List.mem_range, not_exists, not_and]
      intro i hi
      exact hfresh i (by omega) idx (by omega) (by omega)
    simp only [runStream]
    rw [if_neg hmem, if_pos (by omega)]
  | succ n ih =>
    intro idx hidx
    have hmem : alignDown (s idx) cfg.blockSize ∉
        (List.range idx).map (fun i => alignDown (s i) cfg.blockSize) := by
      simp only [List.mem_map, List.mem_range, not_exists, not_and]
      intro i hi
      exact hfresh i (by omega) idx (by omega) (by omega)
    simp only [runStream]
    rw [if_neg hmem, if_neg (by omega), if_pos (hwin idx (by omega)),
        if_pos (by simp only [List.length_map, List.length_range]; omega)]
    have hre : (List.range idx).map
          (fun i => alignDown (s i) cfg.blockSize) ++
          [alignDown (s idx) cfg.blockSize] =
        (List.range (idx + 1)).map
          (fun i => alignDown (s i) cfg.blockSize) := by
      rw [List.range_succ, List.map_append]
      rfl
    rw [hre]
    exact ih (idx + 1) (by omega)

/-- C8: code that never reaches the sentinel and whose accesses keep
faulting on fresh in-window blocks resolves, within the configured
iteration cap plus one interceptor steps, to TimeoutError: the hard
iteration cap bounds the grant-and-resume cycle, so such code can never
hang. -/
theorem faa_nonstop_faulting_times_out (cfg : FaaConfig) (s : Nat → Nat)
    (hwin : ∀ i ≤ cfg.maxIterations,
      cfg.windowLo ≤ s i ∧ s i ≤ cfg.windowHi)
    (hfresh : ∀ i ≤ cfg.maxIterations, ∀ j ≤ cfg.maxIterations, i ≠ j →
      alignDown (s i) cfg.blockSize ≠ alignDown (s j) cfg.blockSize)
    (hcap : cfg.maxIterations ≤ cfg.maxBlocks) :
    runStream cfg s (cfg.maxIterations + 1) 0 [] 0 =
      some (Except.error DiscoveryError.timeoutError) := by
  have h := runStream_timeout_aux cfg s hwin hfresh hcap
    cfg.maxIterations 0 (by omega)
  simpa using h

/-- C8 witness: under cfgT (iteration cap 3) the address-incrementing
stream i ↦ 16 * i times out within 4 steps. -/
theorem faa_nonstop_faulting_times_out_witness :
    runStream cfgT (fun i => 16 * i) (cfgT.maxIterations + 1) 0 [] 0 =
      some (Except.error DiscoveryError.timeoutError) :=
  faa_nonstop_faulting_times_out cfgT (fun i => 16 * i)
    (by intro i hi; simp [cfgT] at hi ⊢; omega)
    (by
      intro i hi j hj hne
      simp [cfgT, alignDown, Nat.mul_mod_right]
      omega)
    (by norm_num [cfgT])

theorem cppStringAt_zero (s : List Char) :
    cppStringAt s 0 = some (charAtZero s) := by
  cases s with
  | nil => rfl
  | cons c t => simp [cppStringAt, charAtZero]

/-- C10: AddressTupleFromProto is total and performs no out-of-bounds
string access on any input proto: interpreting every one of its [0]
subscripts with the bounds-checking C++ subscript semantics never reaches
an undefined access (the subscript at position 0 is defined for every
std::string, the empty string included, where it yields the null
character), and produces the same tuple. -/
theorem addressTupleFromProto_total_no_oob (proto : AddressTupleProto) :
    AddressTupleFromProtoChecked proto = some (AddressTupleFromProto proto) := by
  simp only [AddressTupleFromProtoChecked, AddressTupleFromProto,
    cppStringAt_zero, Option.bind_some, Option.bind_eq_bind]
  rfl

theorem charAtZero_eq_percent_ne_nil {s : List Char}
    (h : charAtZero s = '%') : s ≠ [] := by
  intro hnil
  subst hnil
  exact absurd h (by decide)

theorem addressTuple_roundtrip (t : AddressTuple) (ht : t.RoundTrips) :
    AddressTupleFromProto (ProtoFromAddressTuple t) = t := by
  obtain ⟨br, d, ir, sc, sr, bsz, bir, birs, isz, iir, iirs, ssz, sgir,
    sirs⟩ := t
  obtain ⟨hb, hi, hs⟩ := ht
  simp only [slotRoundTrips] at hb hi hs
  by_cases hcb : charAtZero br = '%' <;>
    by_cases hci : charAtZero ir = '%' <;>
      by_cases hcs : charAtZero sr = '%' <;>
        simp_all [ProtoFromAddressTuple, AddressTupleFromProto,
          AddressTuple.make, AddressTupleProto.default,
          charAtZero_eq_percent_ne_nil]

theorem instructionOperand_roundtrip (o : InstructionOperand)
    (ho : o.RoundTrips) :
    InstructionOperandFromProto (ProtoFromInstructionOperand o) = o := by
  cases o with
  | unknown => rfl
  | register name => rfl
  | immediateValue value => rfl
  | fpImmediateValue value => rfl
  | memoryLocation alias_group_id => rfl
  | address a =>
    simp only [ProtoFromInstructionOperand, InstructionOperandFromProto]
    exact congrArg InstructionOperand.address (addressTuple_roundtrip a ho)
  | virtualRegister name size ir irs =>
    obtain ⟨h1, h2⟩ := ho
    subst h1
    subst h2
    rfl

theorem operandList_roundtrip (l : List InstructionOperand)
    (hl : ∀ o ∈ l, o.RoundTrips) :
    l.map (InstructionOperandFromProto ∘ ProtoFromInstructionOperand) = l := by
  induction l with
  | nil => rfl
  | cons x xs ih =>
    simp only [List.map_cons, Function.comp_apply]
    rw [instructionOperand_roundtrip x (hl x (by simp)),
      ih (fun o ho => hl o (by simp [ho]))]

/-- C9 counterexample: converting an instruction with a virtual-register
operand carrying a nonempty interfered-register list to its wire form and
back is not the identity, because ProtoFromInstructionOperand never
serializes those lists. -/
theorem instruction_roundtrip_counterexample :
    InstructionFromProto (ProtoFromInstruction vregInstruction) ≠
      vregInstruction := by
  decide

/-- C9 amended: converting an Instruction to its wire form and back is the
identity for every instruction whose operands satisfy the round-trip
condition: virtual-register operands carry empty interference lists, and
in every address tuple a percent-named register slot has an empty
interfered-register-sizes list while any other slot holds only default
interference data (the serializer writes neither). -/
theorem instruction_roundtrip_amended (i : Instruction)
    (hrt : i.RoundTrips) :
    InstructionFromProto (ProtoFromInstruction i) = i := by
  obtain ⟨m, lm, ps, ins, iins, outs, iouts⟩ := i
  obtain ⟨h1, h2, h3, h4⟩ := hrt
  simp only [InstructionFromProto, ProtoFromInstruction, List.map_map]
  rw [operandList_roundtrip ins h1, operandList_roundtrip iins h2,
    operandList_roundtrip outs h3, operandList_roundtrip iouts h4]

/-- C9 witness: a concrete well-formed instruction (address operand with
percent-named base register, immediate, register and unknown operands)
satisfies the round-trip condition and survives the round trip. -/
theorem instruction_roundtrip_amended_witness :
    InstructionFromProto (ProtoFromInstruction addrInstruction) =
      addrInstruction :=
  instruction_roundtrip_amended addrInstruction (by decide)

end Gematria
